import Mathlib

/-!
Verification development for the gopublic tunneling client.

Shallow embedding of the client's core subsystems, translated from the Go
sources:

* `internal/client/stats/stats.go` — the statistics engine (`Stats`,
  `Snapshot`, counters, sample ring, percentile snapshot);
* the inspector package — `InMemoryStore` (bounded exchange ring), the
  package-global exchange list with `GetExchange`, and `handleReplay`;
* `internal/client/tunnel/tunnel.go` — the handshake message sequence and
  the per-stream proxy worker `proxyStream`, embedded as an effect trace;
* `internal/client/events` — the event bus, whose implementation file is
  not part of the sources; it is modelled from the specification and its
  test suite.

Modelling conventions: Go `time.Duration` values are non-negative in this
program and are embedded as `Nat`; Go `int64` counters are embedded as
`Int` (the program performs no wrapping arithmetic and the counters cannot
feasibly reach 2^63, so overflow is not modelled); Go pointers to request
and response records are embedded as indices into an explicit heap, so
that sharing between a stored exchange and a returned shallow copy is
observable; fallible operations return `Option`.
-/

namespace Gopublic

/-! ## Statistics engine (`internal/client/stats/stats.go`) -/

/-- State of the `Stats` tracker.  Fields mirror the Go struct; the mutex,
`startTime` and wall-clock uptime are not modelled (they carry no data the
claims depend on).  `requestTimes` is the ring buffer of request durations,
`maxSamples` its capacity. -/
structure Stats where
  totalConns : Int
  openConns : Int
  totalRequests : Int
  totalBytes : Int
  requestTimes : List Nat
  maxSamples : Nat
  serverLatency : Nat
deriving DecidableEq, Repr

/-- Go `stats.New()`: empty counters, sample capacity 100. -/
def Stats.New : Stats :=
  { totalConns := 0, openConns := 0, totalRequests := 0, totalBytes := 0
    requestTimes := [], maxSamples := 100, serverLatency := 0 }

/-- Go `stats.NewWithOptions(maxSamples)`: a non-positive capacity falls
back to 100. -/
def Stats.NewWithOptions (maxSamples : Int) : Stats :=
  if maxSamples ≤ 0 then Stats.New
  else { Stats.New with maxSamples := maxSamples.toNat }

/-- Go `(*Stats).IncrementConnections`: bumps both the total and the open
connection counters. -/
def Stats.IncrementConnections (s : Stats) : Stats :=
  { s with totalConns := s.totalConns + 1, openConns := s.openConns + 1 }

/-- Go `(*Stats).DecrementOpenConnections`: decrements the open counter
only when it is strictly positive (clamped at zero). -/
def Stats.DecrementOpenConnections (s : Stats) : Stats :=
  if s.openConns > 0 then { s with openConns := s.openConns - 1 } else s

/-- Go `(*Stats).RecordRequest(duration, bytes)`: bumps the request and
byte totals and appends the duration to the ring buffer, shifting out the
oldest sample when the buffer is at capacity. -/
def Stats.RecordRequest (s : Stats) (duration : Nat) (bytes : Int) : Stats :=
  let kept := if s.requestTimes.length ≥ s.maxSamples
    then s.requestTimes.drop 1
    else s.requestTimes
  { s with totalRequests := s.totalRequests + 1
           totalBytes := s.totalBytes + bytes
           requestTimes := kept ++ [duration] }

/-- Go `(*Stats).SetServerLatency`. -/
def Stats.SetServerLatency (s : Stats) (latency : Nat) : Stats :=
  { s with serverLatency := latency }

/-- Go `(*Stats).Reset`: zeroes every counter and empties the ring. -/
def Stats.Reset (s : Stats) : Stats :=
  { s with totalConns := 0, openConns := 0, totalRequests := 0
           totalBytes := 0, requestTimes := [], serverLatency := 0 }

/-- Insertion of a value into a sorted list of durations; helper for
`sortNat`. -/
def insertNat (x : Nat) : List Nat → List Nat
  | [] => [x]
  | y :: ys => if x ≤ y then x :: y :: ys else y :: insertNat x ys

/-- Insertion sort on durations.  Embeds the `sort.Slice(sorted, <)` call
of `Snapshot`; on `Nat` any comparison sort produces the same list. -/
def sortNat : List Nat → List Nat
  | [] => []
  | x :: xs => insertNat x (sortNat xs)

/-- The `Snapshot` struct.  `Uptime` is wall-clock derived and not
modelled. -/
structure Snapshot where
  TotalConnections : Int
  OpenConnections : Int
  TotalRequests : Int
  TotalBytes : Int
  RT1 : Nat
  RT5 : Nat
  P50 : Nat
  P90 : Nat
  ServerLatency : Nat
deriving DecidableEq, Repr

/-- Go `(*Stats).Snapshot`.  With `n` buffered samples: `RT1` is the last
sample, `RT5` the truncated integer mean of the last `min 5 n` samples
(Go divides two `time.Duration` values, i.e. truncating division), `P50`
the sorted buffer at index `n / 2`, `P90` the sorted buffer at index
`int(float64(n) * 0.9)` capped at `n - 1`.  The float expression equals
`9 * n / 10` for every feasible buffer length (exactly representable
products; the two differ only for `n` beyond 2^49, far past any in-memory
sample count), so the index is embedded as `9 * n / 10`.  When the buffer
is empty all four timings are zero. -/
def Stats.Snapshot (s : Stats) : Gopublic.Snapshot :=
  let n := s.requestTimes.length
  let base : Gopublic.Snapshot :=
    { TotalConnections := s.totalConns, OpenConnections := s.openConns
      TotalRequests := s.totalRequests, TotalBytes := s.totalBytes
      RT1 := 0, RT5 := 0, P50 := 0, P90 := 0
      ServerLatency := s.serverLatency }
  if n = 0 then base
  else
    let rt1 := s.requestTimes.getD (n - 1) 0
    let count := min 5 n
    let rt5 := (s.requestTimes.drop (n - count)).sum / count
    let sorted := sortNat s.requestTimes
    let p50 := sorted.getD (n / 2) 0
    let p90Index0 := 9 * n / 10
    let p90Index := if p90Index0 ≥ n then n - 1 else p90Index0
    let p90 := sorted.getD p90Index 0
    { base with RT1 := rt1, RT5 := rt5, P50 := p50, P90 := p90 }

/-- One mutating or observing operation on the statistics engine.
`snapshot` reads under the reader lock and leaves the state unchanged. -/
inductive StatsOp
  | increment
  | decrement
  | record (duration : Nat) (bytes : Int)
  | setLatency (latency : Nat)
  | reset
  | snapshot
deriving DecidableEq, Repr

/-- Effect of one operation on the engine state. -/
def Stats.applyOp (s : Stats) : StatsOp → Stats
  | .increment => s.IncrementConnections
  | .decrement => s.DecrementOpenConnections
  | .record d b => s.RecordRequest d b
  | .setLatency l => s.SetServerLatency l
  | .reset => s.Reset
  | .snapshot => s

/-- Effect of a whole operation sequence, oldest first. -/
def Stats.applyOps (s : Stats) (ops : List StatsOp) : Stats :=
  ops.foldl Stats.applyOp s

/-- The connection-counter invariant of claim C8. -/
def Stats.ConnInv (s : Stats) : Prop :=
  0 ≤ s.openConns ∧ s.openConns ≤ s.totalConns

/-- Fold of `RecordRequest` (with byte count 0) over a list of durations,
oldest first; used to describe an engine filled from fresh. -/
def Stats.recordSeq (s : Stats) (ds : List Nat) : Stats :=
  ds.foldl (fun st d => st.RecordRequest d 0) s

/-! ## Inspector data model and store (inspector package) -/

/-- The `HTTPRequest` record captured for the inspector.  The multi-valued
header map is embedded as an association list. -/
structure HTTPRequest where
  Method : String
  URL : String
  Proto : String
  Headers : List (String × List String)
  Body : String
  Size : Int
deriving DecidableEq, Repr, Inhabited

/-- The `HTTPResponse` record captured for the inspector. -/
structure HTTPResponse where
  Status : Int
  Proto : String
  Headers : List (String × List String)
  Body : String
  Size : Int
deriving DecidableEq, Repr, Inhabited

/-- The `HTTPExchange` record.  In Go the `Request` and `Response` fields
are pointers (`*HTTPRequest`, `*HTTPResponse`); they are embedded as
optional indices into an explicit heap of records (see `World`), so that
the sharing a Go pointer creates is observable.  `nil` is `none`. -/
structure HTTPExchange where
  ID : Int
  RequestPtr : Option Nat
  ResponsePtr : Option Nat
  Duration : Int
  Timestamp : Int
deriving DecidableEq, Repr, Inhabited

/-- The `InMemoryStore` struct: exchange list (newest first), next
identifier, capacity.  The mutex is not modelled. -/
structure InMemoryStore where
  exchanges : List HTTPExchange
  nextID : Int
  maxSize : Nat
deriving DecidableEq, Repr

/-- Go `NewInMemoryStore(maxSize)`: a non-positive capacity falls back to
100. -/
def NewInMemoryStore (maxSize : Int) : InMemoryStore :=
  if maxSize ≤ 0 then { exchanges := [], nextID := 0, maxSize := 100 }
  else { exchanges := [], nextID := 0, maxSize := maxSize.toNat }

/-- Go `(*InMemoryStore).Add`: stamps the next identifier into the record,
prepends it, and when the buffer is at capacity shifts the existing
entries right (dropping the oldest).  Returns the updated store and the
assigned identifier. -/
def InMemoryStore.Add (s : InMemoryStore) (exchange : HTTPExchange) :
    InMemoryStore × Int :=
  let stamped := { exchange with ID := s.nextID }
  let exs := if s.exchanges.length ≥ s.maxSize
    then stamped :: s.exchanges.dropLast
    else stamped :: s.exchanges
  ({ exchanges := exs, nextID := s.nextID + 1, maxSize := s.maxSize }, s.nextID)

/-- Go `(*InMemoryStore).Get`: linear search by identifier; the Go code
returns the address of a stack copy of the struct, so the caller receives
a copy of the `HTTPExchange` value (pointer fields included). -/
def InMemoryStore.Get (s : InMemoryStore) (id : Int) : Option HTTPExchange :=
  s.exchanges.find? (fun ex => ex.ID == id)

/-- Go `(*InMemoryStore).List`: returns a freshly copied slice of the
exchanges, newest first (value equality with the internal list; named in
lower case because `List` is taken in Lean). -/
def InMemoryStore.list (s : InMemoryStore) : List HTTPExchange :=
  s.exchanges

/-- Go `(*InMemoryStore).Clear`: empties the ring; `nextID` is kept. -/
def InMemoryStore.Clear (s : InMemoryStore) : InMemoryStore :=
  { s with exchanges := [] }

/-- Go `(*InMemoryStore).Count`. -/
def InMemoryStore.Count (s : InMemoryStore) : Nat :=
  s.exchanges.length

/-- One operation on an inspector store instance. -/
inductive StoreOp
  | add (exchange : HTTPExchange)
  | clear
  | get (id : Int)
  | listAll
  | count
deriving DecidableEq, Repr

/-- Runs an operation sequence on a store, collecting the identifiers the
`add` operations return, in order.  `get`, `list` and `count` read under
the lock and do not change the state. -/
def InMemoryStore.runOps : InMemoryStore → List StoreOp → InMemoryStore × List Int
  | s, [] => (s, [])
  | s, StoreOp.add ex :: ops =>
    let r := s.Add ex
    let rest := r.1.runOps ops
    (rest.1, r.2 :: rest.2)
  | s, StoreOp.clear :: ops => s.Clear.runOps ops
  | s, StoreOp.get _ :: ops => s.runOps ops
  | s, StoreOp.listAll :: ops => s.runOps ops
  | s, StoreOp.count :: ops => s.runOps ops

/-- Number of `add` operations in a sequence. -/
def countAdds : List StoreOp → Nat
  | [] => 0
  | StoreOp.add _ :: ops => countAdds ops + 1
  | _ :: ops => countAdds ops

/-- Fold of `Add` over a list of exchanges (identifiers discarded). -/
def InMemoryStore.addAll (s : InMemoryStore) (ds : List HTTPExchange) :
    InMemoryStore :=
  ds.foldl (fun st ex => (st.Add ex).1) s

/-- The exchanges a store assigns when adding `ds` in order starting from
identifier `start`: each record stamped with consecutive identifiers. -/
def stampSeq (start : Int) : List HTTPExchange → List HTTPExchange
  | [] => []
  | ex :: rest => { ex with ID := start } :: stampSeq (start + 1) rest

/-- An exchange record with every optional part absent; the payload used
by the store seed scenarios. -/
def emptyExchange : HTTPExchange :=
  { ID := 0, RequestPtr := none, ResponsePtr := none, Duration := 0, Timestamp := 0 }

/-- A store paired with the heap of request records its exchanges point
into.  Models the Go heap reachable from the store: `RequestPtr` indices
address `reqHeap`. -/
structure World where
  store : InMemoryStore
  reqHeap : List HTTPRequest
deriving DecidableEq, Repr

/-- Assignment through a request pointer (Go `ex.Request.Method = m`):
overwrites the `Method` field of the heap record at index `p`. -/
def World.writeMethod (w : World) (p : Nat) (m : String) : World :=
  { w with reqHeap := w.reqHeap.set p { w.reqHeap.getD p default with Method := m } }

/-- Reading the request record an exchange points to (Go `ex.Request`
dereference). -/
def derefRequest (w : World) (ex : HTTPExchange) : Option HTTPRequest :=
  ex.RequestPtr.bind (fun p => w.reqHeap[p]?)

/-- The request record of the C5 scenario. -/
def c5Request : HTTPRequest :=
  { Method := "GET", URL := "/test", Proto := "HTTP/1.1", Headers := [], Body := "", Size := 0 }

/-- The exchange stored in the C5 scenario (as stamped by `Add`). -/
def c5Stored : HTTPExchange :=
  { ID := 0, RequestPtr := some 0, ResponsePtr := none, Duration := 100, Timestamp := 0 }

/-- C5 scenario: a fresh store holding one exchange whose request pointer
addresses heap slot 0. -/
def c5World : World :=
  { store := ((NewInMemoryStore 100).Add c5Stored).1
    reqHeap := [c5Request] }

/-! ## Inspector HTTP surface: replay (inspector package) -/

/-- Digits-only decimal value of a character list; `none` when empty or
when any character is not a digit.  Helper for `ParseInt64`. -/
def digitsVal (cs : List Char) : Option Nat :=
  if cs = [] then none
  else cs.foldl
    (fun acc c => acc.bind
      (fun n => if c.isDigit then some (n * 10 + (c.toNat - 48)) else none))
    (some 0)

/-- Go `strconv.ParseInt(s, 10, 64)` as used by the inspector routes: an
optional sign followed by decimal digits; any other shape or an overflow
of the signed 64-bit range is an error (`none`). -/
def ParseInt64 (s : String) : Option Int :=
  match s.toList with
  | [] => none
  | c :: rest =>
    if c = '-' then
      (digitsVal rest).bind (fun n =>
        if (n : Int) ≤ 2 ^ 63 then some (-(n : Int)) else none)
    else if c = '+' then
      (digitsVal rest).bind (fun n =>
        if (n : Int) ≤ 2 ^ 63 - 1 then some ((n : Int)) else none)
    else
      (digitsVal (c :: rest)).bind (fun n =>
        if (n : Int) ≤ 2 ^ 63 - 1 then some ((n : Int)) else none)

/-- Go `GetExchange(id)`: linear search of the package-global exchange
list (passed explicitly here). -/
def GetExchange (exchanges : List HTTPExchange) (id : Int) : Option HTTPExchange :=
  exchanges.find? (fun ex => ex.ID == id)

/-- The upstream response a replay receives from the local service. -/
structure UpstreamResponse where
  Status : Int
  Headers : List (String × List String)
  Body : String
deriving DecidableEq, Repr

/-- The HTTP result `handleReplay` writes: a bare error status, or the
JSON object `{status, headers, body}` echoing the upstream response. -/
inductive ReplayResult
  | httpError (status : Nat)
  | jsonOut (status : Int) (headers : List (String × List String)) (body : String)
deriving DecidableEq, Repr

/-- Timeout of the replay HTTP client, seconds (Go
`http.Client{Timeout: 30 * time.Second}`). -/
def replayTimeoutSeconds : Nat := 30

/-- Go `handleReplay(w, r, idStr)`, as a decision function over the parts
of the environment it consults, checked in source order: non-POST method →
405; unparsable identifier → 400; unknown identifier → 404; unconfigured
local port → 500; then the request is rebuilt with `http.NewRequest` —
`buildOk` is that call's outcome, true for every exchange captured from
parsed traffic, and a failed rebuild also yields 500; failing upstream
round trip (`none`) → 502;
otherwise the JSON body `{status, headers, body}` of the upstream
response. -/
def handleReplay (method : String) (idStr : String)
    (exchanges : List HTTPExchange) (localPort : String)
    (buildOk : Bool) (upstream : Option UpstreamResponse) : ReplayResult :=
  if method ≠ "POST" then ReplayResult.httpError 405
  else match ParseInt64 idStr with
    | none => ReplayResult.httpError 400
    | some id =>
      match GetExchange exchanges id with
      | none => ReplayResult.httpError 404
      | some _ =>
        if localPort = "" then ReplayResult.httpError 500
        else if buildOk = false then ReplayResult.httpError 500
        else match upstream with
          | none => ReplayResult.httpError 502
          | some resp => ReplayResult.jsonOut resp.Status resp.Headers resp.Body

/-! ## Event vocabulary (`internal/client/events`) -/

/-- The event kinds of the bus (from the `EventType` constants exercised
by `events_test.go`). -/
inductive EventType
  | connecting
  | connected
  | disconnected
  | reconnecting
  | requestStart
  | requestComplete
  | error
  | tunnelReady
deriving DecidableEq, Repr

/-! ## Proxy worker (`internal/client/tunnel/tunnel.go`) -/

/-- Outcome of the fallible steps a single `proxyStream` run encounters,
in program order: the local TCP dial, `http.ReadRequest`, `req.Write`,
`http.ReadResponse`, `resp.Write`; plus the two `time.Since(startTime)`
readings the worker can take (at response-parse failure, and after the
response body is read). -/
structure StreamOutcome where
  dialOk : Bool
  requestParsed : Bool
  writeRequestOk : Bool
  responseParsed : Bool
  writeResponseOk : Bool
  elapsedAtResponseFailure : Nat
  totalElapsed : Nat
deriving DecidableEq, Repr

/-- Observable actions of one proxy worker.  The vocabulary includes the
statistics and event-bus operations so that claims about them can be
stated; `addExchange` records whether a request and a response part are
present and the duration stamped. -/
inductive ProxyEffect
  | dialLocal (ok : Bool)
  | rawTcpCopy
  | addExchange (hasRequest : Bool) (hasResponse : Bool) (duration : Nat)
  | incrementConnections
  | decrementOpenConnections
  | recordRequest (duration : Nat) (bytes : Int)
  | publish (t : EventType)
  | writeResponseFailedLog
  | closeLocal
  | closeRemote
deriving DecidableEq, Repr

/-- Go `(*Tunnel).proxyStream`, embedded as the trace of observable
actions of one run, following the source's branch order: failed local
dial → log and close the stream; failed request parse → raw TCP copy in
both directions; failed request forward → close both; failed response
parse → record an exchange with no response part and the elapsed time so
far; otherwise record the full exchange (before writing the response
back) and forward the response.  The deferred closes of the local socket
and the inbound stream run on every exit path after the dial succeeded. -/
def proxyStream (o : StreamOutcome) : List ProxyEffect :=
  if o.dialOk = false then
    [ProxyEffect.dialLocal false, ProxyEffect.closeRemote]
  else if o.requestParsed = false then
    [ProxyEffect.dialLocal true, ProxyEffect.rawTcpCopy,
     ProxyEffect.closeLocal, ProxyEffect.closeRemote]
  else if o.writeRequestOk = false then
    [ProxyEffect.dialLocal true, ProxyEffect.closeLocal, ProxyEffect.closeRemote]
  else if o.responseParsed = false then
    [ProxyEffect.dialLocal true,
     ProxyEffect.addExchange true false o.elapsedAtResponseFailure,
     ProxyEffect.closeLocal, ProxyEffect.closeRemote]
  else
    [ProxyEffect.dialLocal true,
     ProxyEffect.addExchange true true o.totalElapsed] ++
    (if o.writeResponseOk then [] else [ProxyEffect.writeResponseFailedLog]) ++
    [ProxyEffect.closeLocal, ProxyEffect.closeRemote]

/-- Recognizes the statistics-engine operations among proxy effects. -/
def isStatsEffect : ProxyEffect → Bool
  | ProxyEffect.incrementConnections => true
  | ProxyEffect.decrementOpenConnections => true
  | ProxyEffect.recordRequest _ _ => true
  | _ => false

/-- Recognizes the event-bus operations among proxy effects. -/
def isBusEffect : ProxyEffect → Bool
  | ProxyEffect.publish _ => true
  | _ => false

/-- Recognizes an inspector capture among proxy effects. -/
def isAddExchange : ProxyEffect → Bool
  | ProxyEffect.addExchange _ _ _ => true
  | _ => false

/-- A fully successful stream outcome; concrete input for the C1
counterexample. -/
def c1Outcome : StreamOutcome :=
  { dialOk := true, requestParsed := true, writeRequestOk := true
    responseParsed := true, writeResponseOk := true
    elapsedAtResponseFailure := 3, totalElapsed := 7 }

/-- Outcome with a failed local dial; concrete input for C7. -/
def c7DialFail : StreamOutcome :=
  { dialOk := false, requestParsed := false, writeRequestOk := false
    responseParsed := false, writeResponseOk := false
    elapsedAtResponseFailure := 0, totalElapsed := 0 }

/-- Outcome with a failed request parse; concrete input for C7. -/
def c7ParseFail : StreamOutcome :=
  { dialOk := true, requestParsed := false, writeRequestOk := false
    responseParsed := false, writeResponseOk := false
    elapsedAtResponseFailure := 0, totalElapsed := 0 }

/-- Outcome with a failed response parse; concrete input for C7. -/
def c7RespFail : StreamOutcome :=
  { dialOk := true, requestParsed := true, writeRequestOk := true
    responseParsed := false, writeResponseOk := false
    elapsedAtResponseFailure := 3, totalElapsed := 0 }

/-- One step of the `handleSession` accept loop: a stream was accepted
(spawning a worker with the given outcome), or `session.Accept` failed,
ending the loop. -/
inductive AcceptEvent
  | stream (o : StreamOutcome)
  | acceptError
deriving DecidableEq, Repr

/-- The workers spawned by the accept loop: one per accepted stream, in
order, until the first accept failure ends the loop.  Worker outcomes do
not feed back into the loop (each runs in its own goroutine). -/
def acceptLoopWorkers : List AcceptEvent → List StreamOutcome
  | [] => []
  | AcceptEvent.stream o :: rest => o :: acceptLoopWorkers rest
  | AcceptEvent.acceptError :: _ => []

/-! ## Tunnel handshake (`internal/client/tunnel/tunnel.go`,
`pkg/protocol`) -/

/-- The `Tunnel` struct. -/
structure Tunnel where
  ServerAddr : String
  Token : String
  LocalPort : String
  Subdomain : String
deriving DecidableEq, Repr

/-- Go `NewTunnel`: the subdomain field is left empty. -/
def NewTunnel (serverAddr token localPort : String) : Tunnel :=
  { ServerAddr := serverAddr, Token := token, LocalPort := localPort, Subdomain := "" }

/-- Protocol `AuthRequest{token, force}`. -/
structure AuthRequest where
  token : String
  force : Bool
deriving DecidableEq, Repr

/-- Protocol `TunnelRequest{requested_domains}`. -/
structure TunnelRequest where
  requestedDomains : List String
deriving DecidableEq, Repr

/-- A JSON record written on the control stream during the handshake. -/
inductive ControlWrite
  | auth (req : AuthRequest)
  | tunnelReq (req : TunnelRequest)
deriving DecidableEq, Repr

/-- The records `handleSession` writes on the control stream, in order:
the `AuthRequest` composite literal sets only `Token` (Go zero value
`false` for `Force`), then the `TunnelRequest` with the specific
subdomain, or an empty list when none is configured. -/
def Tunnel.handshakeWrites (t : Tunnel) : List ControlWrite :=
  [ControlWrite.auth { token := t.Token, force := false },
   ControlWrite.tunnelReq
     { requestedDomains := if t.Subdomain ≠ "" then [t.Subdomain] else [] }]

/-! ## Event bus (`internal/client/events`) -/

/-- Modelled from the spec: the implementation file of the events package
is not among the sources (only `events_test.go` is).  An `Event` carries a
variant kind, an opaque payload (embedded as a number) and a timestamp
filled in at publish time when unset (zero). -/
structure Event where
  type : EventType
  data : Nat
  timestamp : Nat
deriving DecidableEq, Repr

/-- Modelled from the spec: a subscriber endpoint is a bounded buffered
queue (a Go channel) that can be closed. -/
structure Endpoint where
  buffer : List Event
  capacity : Nat
  closed : Bool
deriving DecidableEq, Repr

/-- Modelled from the spec: the bus holds its subscriber endpoints, the
buffer size given to new endpoints (default 16), and a closed flag. -/
structure Bus where
  subscribers : List Endpoint
  bufferSize : Nat
  closed : Bool
deriving DecidableEq, Repr

/-- Modelled from the spec: `NewBus()` — no subscribers, buffer size 16,
open. -/
def NewBus : Bus :=
  { subscribers := [], bufferSize := 16, closed := false }

/-- Modelled from the spec: `NewBusWithBuffer(n)` as exercised by
`TestNonBlockingPublish`. -/
def NewBusWithBuffer (n : Nat) : Bus :=
  { subscribers := [], bufferSize := n, closed := false }

/-- Modelled from the spec: timestamp fill-in at publish time — an unset
(zero) timestamp is replaced by the current time. -/
def stampEvent (now : Nat) (e : Event) : Event :=
  if e.timestamp = 0 then { e with timestamp := now } else e

/-- Modelled from the spec: delivery of one event to one endpoint — a
closed or full endpoint drops the event (non-blocking send on a buffered
channel), an open endpoint with room enqueues it. -/
def deliver (ev : Event) (s : Endpoint) : Endpoint :=
  if s.closed = false ∧ s.buffer.length < s.capacity
  then { s with buffer := s.buffer ++ [ev] }
  else s

/-- Modelled from the spec: `Subscribe()` — a closed bus hands out a
pre-closed endpoint; otherwise a fresh empty endpoint is registered. -/
def Bus.Subscribe (b : Bus) : Bus × Endpoint :=
  if b.closed then (b, { buffer := [], capacity := b.bufferSize, closed := true })
  else
    let e : Endpoint := { buffer := [], capacity := b.bufferSize, closed := false }
    ({ b with subscribers := b.subscribers ++ [e] }, e)

/-- Modelled from the spec: `Publish(event)` — on a closed bus the event
is silently dropped; otherwise the stamped event is offered to every
endpoint independently, each full endpoint dropping it for itself only.
A total function: publishing never fails and never blocks. -/
def Bus.Publish (b : Bus) (now : Nat) (e : Event) : Bus :=
  if b.closed then b
  else { b with subscribers := b.subscribers.map (deliver (stampEvent now e)) }

/-- Modelled from the spec: `Close()` — closes every endpoint and marks
the bus closed. -/
def Bus.CloseBus (b : Bus) : Bus :=
  { subscribers := b.subscribers.map (fun s => { s with closed := true })
    bufferSize := b.bufferSize, closed := true }

/-- Modelled from the spec: `SubscriberCount()`. -/
def Bus.SubscriberCount (b : Bus) : Nat :=
  b.subscribers.length

/-- Concrete event for the C9 scenario (timestamp already set). -/
def c9Event : Event :=
  { type := EventType.connected, data := 0, timestamp := 1 }

/-- C9 scenario: an open bus with two capacity-1 endpoints, the first
already full, the second empty. -/
def c9Bus : Bus :=
  { subscribers :=
      [{ buffer := [{ type := EventType.connecting, data := 0, timestamp := 1 }]
         capacity := 1, closed := false },
       { buffer := [], capacity := 1, closed := false }]
    bufferSize := 1, closed := false }

/-! ## Theorems -/

theorem Stats.connInv_applyOp {s : Stats} (h : s.ConnInv) (op : StatsOp) :
    (s.applyOp op).ConnInv := by
  obtain ⟨h0, h1⟩ := h
  cases op with
  | increment =>
    refine ⟨?_, ?_⟩ <;> simp [Stats.applyOp, Stats.IncrementConnections] <;> omega
  | decrement =>
    simp only [Stats.applyOp, Stats.DecrementOpenConnections, Stats.ConnInv]
    split
    · refine ⟨?_, ?_⟩ <;> dsimp only <;> omega
    · exact ⟨h0, h1⟩
  | record d b => exact ⟨h0, h1⟩
  | setLatency l => exact ⟨h0, h1⟩
  | reset => exact ⟨by simp [Stats.applyOp, Stats.Reset], by simp [Stats.applyOp, Stats.Reset]⟩
  | snapshot => exact ⟨h0, h1⟩

theorem Stats.connInv_applyOps {s : Stats} (h : s.ConnInv) (ops : List StatsOp) :
    (s.applyOps ops).ConnInv := by
  induction ops generalizing s with
  | nil => exact h
  | cons op ops ih => exact ih (Stats.connInv_applyOp h op)

/-- C8: for every sequence of operations on the statistics engine, at
every observation point `open_connections ≥ 0` and
`open_connections ≤ total_connections`; and a decrement at zero open
connections is clamped at zero rather than going negative. -/
theorem stats_open_connections_invariant :
    (∀ ops : List StatsOp,
      0 ≤ (Stats.New.applyOps ops).openConns ∧
      (Stats.New.applyOps ops).openConns ≤ (Stats.New.applyOps ops).totalConns) ∧
    (Stats.New.applyOps [StatsOp.decrement]).openConns = 0 := by
  constructor
  · intro ops
    exact Stats.connInv_applyOps (by constructor <;> simp [Stats.New]) ops
  · decide

theorem Stats.recordSeq_requestTimes (ds : List Nat) :
    ∀ s : Stats, s.requestTimes.length + ds.length ≤ s.maxSamples →
      (s.recordSeq ds).requestTimes = s.requestTimes ++ ds := by
  induction ds with
  | nil => intro s _; simp [Stats.recordSeq]
  | cons d ds ih =>
    intro s h
    have hlt : ¬ s.requestTimes.length ≥ s.maxSamples := by
      simp only [List.length_cons] at h; omega
    have hrec : (s.RecordRequest d 0).requestTimes = s.requestTimes ++ [d] := by
      simp [Stats.RecordRequest, hlt]
    have hstep : s.recordSeq (d :: ds) = (s.RecordRequest d 0).recordSeq ds := rfl
    have hmax : (s.RecordRequest d 0).maxSamples = s.maxSamples := rfl
    rw [hstep, ih (s.RecordRequest d 0) ?_, hrec]
    · simp
    · rw [hrec, hmax]
      simp only [List.length_append, List.length_cons, List.length_nil] at h ⊢
      omega

theorem getD_last (l : List Nat) (h : l ≠ []) :
    l.getD (l.length - 1) 0 = l.getLast h := by
  have hlen : 0 < l.length := List.length_pos.mpr h
  rw [List.getLast_eq_getElem]
  exact List.getD_eq_getElem l 0 (by omega)

theorem p90Index_eq_min (n : Nat) :
    (if 9 * n / 10 ≥ n then n - 1 else 9 * n / 10) = min (9 * n / 10) (n - 1) := by
  split <;> omega

/-- C2: the snapshot's derived timings over the recorded samples: `RT1`
is the most recent duration, `RT5` the truncated mean of the last
`min n 5`, `P50` the sorted buffer at index `n / 2`, `P90` the sorted
buffer at index `min (9n/10) (n-1)`; with no samples all four are zero;
and recording 10..100 ms in steps of 10 into a capacity-100 engine yields
RT1 = 100 ms, RT5 = 80 ms, P50 = 60 ms, P90 = 100 ms. -/
theorem stats_snapshot_derived_timings :
    (∀ ds : List Nat, ds.length ≤ 100 →
      ((ds = [] →
          (Stats.New.recordSeq ds).Snapshot.RT1 = 0 ∧
          (Stats.New.recordSeq ds).Snapshot.RT5 = 0 ∧
          (Stats.New.recordSeq ds).Snapshot.P50 = 0 ∧
          (Stats.New.recordSeq ds).Snapshot.P90 = 0) ∧
       (∀ h : ds ≠ [],
          (Stats.New.recordSeq ds).Snapshot.RT1 = ds.getLast h ∧
          (Stats.New.recordSeq ds).Snapshot.RT5 =
            (ds.rtake (min 5 ds.length)).sum / min 5 ds.length ∧
          (Stats.New.recordSeq ds).Snapshot.P50 = (sortNat ds).getD (ds.length / 2) 0 ∧
          (Stats.New.recordSeq ds).Snapshot.P90 =
            (sortNat ds).getD (min (9 * ds.length / 10) (ds.length - 1)) 0))) ∧
    ((Stats.NewWithOptions 100).recordSeq
        [10, 20, 30, 40, 50, 60, 70, 80, 90, 100]).Snapshot.RT1 = 100 ∧
    ((Stats.NewWithOptions 100).recordSeq
        [10, 20, 30, 40, 50, 60, 70, 80, 90, 100]).Snapshot.RT5 = 80 ∧
    ((Stats.NewWithOptions 100).recordSeq
        [10, 20, 30, 40, 50, 60, 70, 80, 90, 100]).Snapshot.P50 = 60 ∧
    ((Stats.NewWithOptions 100).recordSeq
        [10, 20, 30, 40, 50, 60, 70, 80, 90, 100]).Snapshot.P90 = 100 := by
  refine ⟨?_, by decide, by decide, by decide, by decide⟩
  intro ds hlen
  have hrt : (Stats.New.recordSeq ds).requestTimes = ds := by
    have h := Stats.recordSeq_requestTimes ds Stats.New (by simp [Stats.New]; omega)
    simpa [Stats.New] using h
  constructor
  · intro hnil
    subst hnil
    exact ⟨rfl, rfl, rfl, rfl⟩
  · intro hne
    have hn0 : ds.length ≠ 0 := fun hc => hne (List.length_eq_zero.mp hc)
    refine ⟨?_, ?_, ?_, ?_⟩
    · simp only [Stats.Snapshot, hrt, hn0, if_false]
      exact getD_last ds hne
    · simp only [Stats.Snapshot, hrt, hn0, if_false, List.rtake]
    · simp only [Stats.Snapshot, hrt, hn0, if_false]
    · simp only [Stats.Snapshot, hrt, hn0, if_false]
      rw [p90Index_eq_min ds.length]

theorem stats_snapshot_derived_timings_witness :
    ([10, 20, 30, 40, 50] : List Nat).length ≤ 100 ∧
    ([10, 20, 30, 40, 50] : List Nat) ≠ [] ∧
    (Stats.New.recordSeq [10, 20, 30, 40, 50]).Snapshot.RT1 = 50 := by
  refine ⟨by decide, by decide, ?_⟩
  have h := ((stats_snapshot_derived_timings.1 [10, 20, 30, 40, 50]
      (by decide)).2 (by decide)).1
  exact h.trans rfl

theorem InMemoryStore.runOps_nextID_le (ops : List StoreOp) :
    ∀ s : InMemoryStore, s.nextID ≤ (s.runOps ops).1.nextID := by
  induction ops with
  | nil => intro s; exact le_refl _
  | cons op ops ih =>
    intro s
    cases op with
    | add ex =>
      have h := ih (s.Add ex).1
      have hadd : (s.Add ex).1.nextID = s.nextID + 1 := rfl
      simp only [InMemoryStore.runOps]
      omega
    | clear =>
      have h := ih s.Clear
      have hc : s.Clear.nextID = s.nextID := rfl
      simp only [InMemoryStore.runOps]
      omega
    | get id => exact ih s
    | listAll => exact ih s
    | count => exact ih s

theorem InMemoryStore.runOps_ids_lb (ops : List StoreOp) :
    ∀ s : InMemoryStore, ∀ id ∈ (s.runOps ops).2, s.nextID ≤ id := by
  induction ops with
  | nil => intro s id hid; simp [InMemoryStore.runOps] at hid
  | cons op ops ih =>
    intro s id hid
    cases op with
    | add ex =>
      simp only [InMemoryStore.runOps, List.mem_cons] at hid
      have h2 : (s.Add ex).2 = s.nextID := rfl
      rcases hid with h | h
      · omega
      · have := ih (s.Add ex).1 id h
        have hadd : (s.Add ex).1.nextID = s.nextID + 1 := rfl
        omega
    | clear =>
      have := ih s.Clear id hid
      have hc : s.Clear.nextID = s.nextID := rfl
      omega
    | get i => exact ih s id hid
    | listAll => exact ih s id hid
    | count => exact ih s id hid

theorem InMemoryStore.runOps_ids_pairwise (ops : List StoreOp) :
    ∀ s : InMemoryStore, ((s.runOps ops).2).Pairwise (· < ·) := by
  induction ops with
  | nil => intro s; simp [InMemoryStore.runOps]
  | cons op ops ih =>
    intro s
    cases op with
    | add ex =>
      simp only [InMemoryStore.runOps]
      refine List.Pairwise.cons ?_ (ih (s.Add ex).1)
      intro id hid
      have hlb := InMemoryStore.runOps_ids_lb ops (s.Add ex).1 id hid
      have hadd : (s.Add ex).1.nextID = s.nextID + 1 := rfl
      have h2 : (s.Add ex).2 = s.nextID := rfl
      omega
    | clear => exact ih s.Clear
    | get i => exact ih s
    | listAll => exact ih s
    | count => exact ih s

theorem take_dropLast_eq (l : List HTTPExchange) (j : Nat) (hj : j ≤ l.length - 1) :
    l.dropLast.take j = l.take j := by
  rw [List.dropLast_eq_take, List.take_take]
  congr 1
  omega

theorem take_append_cons_dropLast (R : List HTTPExchange) (a : HTTPExchange)
    (l : List HTTPExchange) (m : Nat) (hm : m ≤ l.length) :
    (R ++ a :: l.dropLast).take m = (R ++ a :: l).take m := by
  rw [List.take_append_eq_append_take, List.take_append_eq_append_take]
  congr 1
  rcases Nat.eq_zero_or_pos (m - R.length) with h0 | hpos
  · rw [h0]; simp
  · obtain ⟨j, hj⟩ : ∃ j, m - R.length = j + 1 := ⟨m - R.length - 1, by omega⟩
    rw [hj, List.take_succ_cons, List.take_succ_cons,
      take_dropLast_eq l j (by omega)]

theorem InMemoryStore.addAll_exchanges (ds : List HTTPExchange) :
    ∀ s : InMemoryStore, 0 < s.maxSize → s.exchanges.length ≤ s.maxSize →
      (s.addAll ds).exchanges =
        ((stampSeq s.nextID ds).reverse ++ s.exchanges).take s.maxSize := by
  induction ds with
  | nil =>
    intro s _ h
    simp only [InMemoryStore.addAll, List.foldl_nil, stampSeq,
      List.reverse_nil, List.nil_append]
    exact (List.take_of_length_le h).symm
  | cons ex ds ih =>
    intro s hpos h
    have hstep : s.addAll (ex :: ds) = ((s.Add ex).1).addAll ds := rfl
    have hmax : (s.Add ex).1.maxSize = s.maxSize := rfl
    have hnid : (s.Add ex).1.nextID = s.nextID + 1 := rfl
    have hseq : stampSeq s.nextID (ex :: ds) =
        { ex with ID := s.nextID } :: stampSeq (s.nextID + 1) ds := rfl
    have hpos' : 0 < (s.Add ex).1.maxSize := hpos
    by_cases hc : s.exchanges.length ≥ s.maxSize
    · have hlen : s.exchanges.length = s.maxSize := le_antisymm h hc
      have hadd : (s.Add ex).1.exchanges =
          { ex with ID := s.nextID } :: s.exchanges.dropLast := by
        simp [InMemoryStore.Add, hc]
      have hlen' : (s.Add ex).1.exchanges.length ≤ (s.Add ex).1.maxSize := by
        rw [hadd, hmax]
        simp only [List.length_cons, List.length_dropLast]
        omega
      rw [hstep, ih (s.Add ex).1 hpos' hlen', hadd, hmax, hnid, hseq,
        List.reverse_cons, List.append_assoc, List.singleton_append]
      exact take_append_cons_dropLast _ _ _ _ (le_of_eq hlen.symm)
    · have hadd : (s.Add ex).1.exchanges =
          { ex with ID := s.nextID } :: s.exchanges := by
        simp [InMemoryStore.Add, hc]
      have hlen' : (s.Add ex).1.exchanges.length ≤ (s.Add ex).1.maxSize := by
        rw [hadd, hmax]
        simp only [List.length_cons]
        omega
      rw [hstep, ih (s.Add ex).1 hpos' hlen', hadd, hmax, hnid, hseq,
        List.reverse_cons, List.append_assoc, List.singleton_append]

/-- C4: with capacity `C`, a fresh store filled by any sequence of adds
holds the stamped exchanges newest-first truncated to the newest `C`
(so `Add` prepends and evicts the oldest at capacity), the count never
exceeds `C`, a non-positive capacity falls back to 100, and the capacity-3
five-add scenario leaves count 3 with identifiers 4 and 2 at positions 0
and 2 of `list`. -/
theorem inspector_store_eviction_newest_first :
    (∀ (C : Nat) (ds : List HTTPExchange), 0 < C →
      ((NewInMemoryStore ((C : Nat) : Int)).addAll ds).Count ≤ C ∧
      ((NewInMemoryStore ((C : Nat) : Int)).addAll ds).list =
        (stampSeq 0 ds).reverse.take C) ∧
    (NewInMemoryStore 0).maxSize = 100 ∧
    ((NewInMemoryStore 3).addAll
      [emptyExchange, emptyExchange, emptyExchange,
       emptyExchange, emptyExchange]).Count = 3 ∧
    (((NewInMemoryStore 3).addAll
      [emptyExchange, emptyExchange, emptyExchange,
       emptyExchange, emptyExchange]).list.getD 0 default).ID = 4 ∧
    (((NewInMemoryStore 3).addAll
      [emptyExchange, emptyExchange, emptyExchange,
       emptyExchange, emptyExchange]).list.getD 2 default).ID = 2 := by
  refine ⟨?_, by decide, by decide, by decide, by decide⟩
  intro C ds hC
  have hcond : ¬ ((C : Int) ≤ 0) := by omega
  have hnew : NewInMemoryStore ((C : Nat) : Int) =
      { exchanges := [], nextID := 0, maxSize := C } := by
    rw [NewInMemoryStore, if_neg hcond]
    have ht : ((C : Int)).toNat = C := by omega
    rw [ht]
  have h := InMemoryStore.addAll_exchanges ds
      { exchanges := [], nextID := 0, maxSize := C } hC (by simp)
  rw [hnew]
  constructor
  · show (InMemoryStore.addAll _ ds).exchanges.length ≤ C
    rw [h]
    simp only [List.length_take]
    omega
  · show (InMemoryStore.addAll _ ds).exchanges = (stampSeq 0 ds).reverse.take C
    rw [h]
    simp

theorem inspector_store_eviction_newest_first_witness :
    0 < (3 : Nat) ∧
    ((NewInMemoryStore ((3 : Nat) : Int)).addAll
      [emptyExchange, emptyExchange, emptyExchange,
       emptyExchange, emptyExchange]).list =
      (stampSeq 0 [emptyExchange, emptyExchange, emptyExchange,
       emptyExchange, emptyExchange]).reverse.take 3 :=
  ⟨by decide,
    (inspector_store_eviction_newest_first.1 3
      [emptyExchange, emptyExchange, emptyExchange,
       emptyExchange, emptyExchange] (by decide)).2⟩

/-- C3: the identifiers returned by successive `Add` operations on one
store instance are strictly increasing across any operation sequence;
`Clear` leaves the identifier counter untouched; and after adding five
exchanges and clearing, the next add is assigned identifier 5. -/
theorem inspector_store_ids_strictly_increasing :
    (∀ (s : InMemoryStore) (ops : List StoreOp),
      ((s.runOps ops).2).Pairwise (· < ·)) ∧
    (∀ s : InMemoryStore, s.Clear.nextID = s.nextID) ∧
    ((NewInMemoryStore 100).runOps
      [StoreOp.add emptyExchange, StoreOp.add emptyExchange,
       StoreOp.add emptyExchange, StoreOp.add emptyExchange,
       StoreOp.add emptyExchange, StoreOp.clear,
       StoreOp.add emptyExchange]).2 = [0, 1, 2, 3, 4, 5] := by
  refine ⟨?_, fun s => rfl, by decide⟩
  intro s ops
  exact InMemoryStore.runOps_ids_pairwise ops s

/-- C5 counterexample: `Get` returns a shallow copy.  Mutating the nested
request record through the returned copy's shared pointer changes what a
subsequent `Get` on the store observes, so the claim that mutations of
the nested request/response records leave the stored exchange unchanged
is false. -/
theorem inspector_get_deep_copy_counterexample :
    c5World.store.Get 0 = some c5Stored ∧
    derefRequest c5World c5Stored = some c5Request ∧
    derefRequest (c5World.writeMethod 0 "MODIFIED") c5Stored =
      some { c5Request with Method := "MODIFIED" } ∧
    derefRequest (c5World.writeMethod 0 "MODIFIED") c5Stored ≠
      derefRequest c5World c5Stored := by
  decide

/-- C5 amended: `Get` returns a value copy of the exchange record only
(identifier, duration, timestamp and the request/response pointers); the
nested request record is shared by reference, so writing through the
returned copy's request pointer leaves the store's exchange list
untouched while changing the request data every holder of the pointer —
the store included — observes. -/
theorem inspector_get_shallow_copy :
    ∀ (w : World) (id : Int) (ex : HTTPExchange) (p : Nat) (m : String),
      w.store.Get id = some ex →
      ex.RequestPtr = some p →
      p < w.reqHeap.length →
      ((w.writeMethod p m).store = w.store ∧
       derefRequest (w.writeMethod p m) ex =
         some { w.reqHeap.getD p default with Method := m }) := by
  intro w id ex p m _hget hptr hp
  refine ⟨rfl, ?_⟩
  simp [derefRequest, hptr, World.writeMethod, List.getElem?_set, hp]

theorem inspector_get_shallow_copy_witness :
    c5World.store.Get 0 = some c5Stored ∧
    c5Stored.RequestPtr = some 0 ∧
    (0 : Nat) < c5World.reqHeap.length ∧
    ((c5World.writeMethod 0 "PUT").store = c5World.store ∧
     derefRequest (c5World.writeMethod 0 "PUT") c5Stored =
       some { c5World.reqHeap.getD 0 default with Method := "PUT" }) :=
  ⟨by decide, by decide, by decide,
    inspector_get_shallow_copy c5World 0 c5Stored 0 "PUT"
      (by decide) (by decide) (by decide)⟩

/-- C6: the replay route's status mapping, in the source's check order:
405 for a non-POST method, 400 for a non-integer identifier, 404 for an
unknown identifier, 500 for an unconfigured local port, 502 for a failed
upstream round trip, otherwise the JSON `{status, headers, body}` of the
upstream response; the replay client timeout is 30 seconds.  The
request-rebuild outcome is `true` for every exchange captured from parsed
traffic. -/
theorem inspector_replay_status_mapping :
    (∀ (method idStr : String) (exchanges : List HTTPExchange)
       (localPort : String) (buildOk : Bool) (upstream : Option UpstreamResponse),
      (method ≠ "POST" →
        handleReplay method idStr exchanges localPort buildOk upstream =
          ReplayResult.httpError 405) ∧
      (ParseInt64 idStr = none →
        handleReplay "POST" idStr exchanges localPort buildOk upstream =
          ReplayResult.httpError 400) ∧
      (∀ id : Int, ParseInt64 idStr = some id →
        GetExchange exchanges id = none →
        handleReplay "POST" idStr exchanges localPort buildOk upstream =
          ReplayResult.httpError 404) ∧
      (∀ (id : Int) (ex : HTTPExchange), ParseInt64 idStr = some id →
        GetExchange exchanges id = some ex →
        handleReplay "POST" idStr exchanges "" buildOk upstream =
          ReplayResult.httpError 500) ∧
      (∀ (id : Int) (ex : HTTPExchange), ParseInt64 idStr = some id →
        GetExchange exchanges id = some ex → localPort ≠ "" →
        handleReplay "POST" idStr exchanges localPort true none =
          ReplayResult.httpError 502) ∧
      (∀ (id : Int) (ex : HTTPExchange) (resp : UpstreamResponse),
        ParseInt64 idStr = some id →
        GetExchange exchanges id = some ex → localPort ≠ "" →
        handleReplay "POST" idStr exchanges localPort true (some resp) =
          ReplayResult.jsonOut resp.Status resp.Headers resp.Body)) ∧
    replayTimeoutSeconds = 30 := by
  refine ⟨?_, rfl⟩
  intro method idStr exchanges localPort buildOk upstream
  refine ⟨?_, ?_, ?_, ?_, ?_, ?_⟩
  · intro h; simp [handleReplay, h]
  · intro h; simp [handleReplay, h]
  · intro id hid hnone; simp [handleReplay, hid, hnone]
  · intro id ex hid hsome; simp [handleReplay, hid, hsome]
  · intro id ex hid hsome hlp; simp [handleReplay, hid, hsome, hlp]
  · intro id ex resp hid hsome hlp; simp [handleReplay, hid, hsome, hlp]

theorem inspector_replay_status_mapping_witness :
    handleReplay "GET" "0" [] "" false none = ReplayResult.httpError 405 ∧
    handleReplay "POST" "abc" [] "" false none = ReplayResult.httpError 400 ∧
    handleReplay "POST" "7" [] "" false none = ReplayResult.httpError 404 ∧
    handleReplay "POST" "0" [emptyExchange] "" false none =
      ReplayResult.httpError 500 ∧
    handleReplay "POST" "0" [emptyExchange] "3000" true none =
      ReplayResult.httpError 502 ∧
    handleReplay "POST" "0" [emptyExchange] "3000" true
        (some { Status := 200, Headers := [], Body := "ok" }) =
      ReplayResult.jsonOut 200 [] "ok" := by
  have h := inspector_replay_status_mapping
  exact ⟨(h.1 "GET" "0" [] "" false none).1 (by decide),
    (h.1 "POST" "abc" [] "" false none).2.1 (by decide),
    (h.1 "POST" "7" [] "" false none).2.2.1 7 (by decide) (by decide),
    (h.1 "POST" "0" [emptyExchange] "" false none).2.2.2.1 0 emptyExchange
      (by decide) (by decide),
    (h.1 "POST" "0" [emptyExchange] "3000" true none).2.2.2.2.1 0 emptyExchange
      (by decide) (by decide) (by decide),
    (h.1 "POST" "0" [emptyExchange] "3000" true
        (some { Status := 200, Headers := [], Body := "ok" })).2.2.2.2.2
      0 emptyExchange { Status := 200, Headers := [], Body := "ok" }
      (by decide) (by decide) (by decide)⟩

/-- C7: per-request failures are contained in the worker: a failed local
dial closes the stream with no exchange recorded; a failed request parse
degrades to a raw byte copy with no exchange recorded; a failed response
parse records an exchange with no response part and the elapsed time so
far, then both sides are closed; and the accept loop spawns one worker
per accepted stream and proceeds regardless of any worker's outcome. -/
theorem proxy_worker_failure_containment :
    (∀ o : StreamOutcome,
      (o.dialOk = false →
        proxyStream o = [ProxyEffect.dialLocal false, ProxyEffect.closeRemote] ∧
        (proxyStream o).any isAddExchange = false) ∧
      (o.dialOk = true → o.requestParsed = false →
        ProxyEffect.rawTcpCopy ∈ proxyStream o ∧
        (proxyStream o).any isAddExchange = false ∧
        ProxyEffect.closeLocal ∈ proxyStream o ∧
        ProxyEffect.closeRemote ∈ proxyStream o) ∧
      (o.dialOk = true → o.requestParsed = true → o.writeRequestOk = true →
        o.responseParsed = false →
        ProxyEffect.addExchange true false o.elapsedAtResponseFailure ∈
          proxyStream o ∧
        ProxyEffect.closeLocal ∈ proxyStream o ∧
        ProxyEffect.closeRemote ∈ proxyStream o)) ∧
    (∀ (o : StreamOutcome) (rest : List AcceptEvent),
      acceptLoopWorkers (AcceptEvent.stream o :: rest) =
        o :: acceptLoopWorkers rest) := by
  refine ⟨?_, fun o rest => rfl⟩
  intro o
  refine ⟨?_, ?_, ?_⟩
  · intro h; simp [proxyStream, h, isAddExchange]
  · intro h1 h2; simp [proxyStream, h1, h2, isAddExchange]
  · intro h1 h2 h3 h4; simp [proxyStream, h1, h2, h3, h4]

theorem proxy_worker_failure_containment_witness :
    (proxyStream c7DialFail =
      [ProxyEffect.dialLocal false, ProxyEffect.closeRemote] ∧
     (proxyStream c7DialFail).any isAddExchange = false) ∧
    (ProxyEffect.rawTcpCopy ∈ proxyStream c7ParseFail ∧
     (proxyStream c7ParseFail).any isAddExchange = false ∧
     ProxyEffect.closeLocal ∈ proxyStream c7ParseFail ∧
     ProxyEffect.closeRemote ∈ proxyStream c7ParseFail) ∧
    (ProxyEffect.addExchange true false c7RespFail.elapsedAtResponseFailure ∈
      proxyStream c7RespFail ∧
     ProxyEffect.closeLocal ∈ proxyStream c7RespFail ∧
     ProxyEffect.closeRemote ∈ proxyStream c7RespFail) :=
  ⟨(proxy_worker_failure_containment.1 c7DialFail).1 rfl,
   (proxy_worker_failure_containment.1 c7ParseFail).2.1 rfl rfl,
   (proxy_worker_failure_containment.1 c7RespFail).2.2 rfl rfl rfl rfl⟩

/-- C1 counterexample: on a fully successful stream the worker's trace
contains the inspector capture but no statistics operation and no event
publication — `proxyStream` never touches the statistics engine or the
event bus, so the claim that it increments connection counters, records
the request and publishes `request_complete` is false. -/
theorem proxy_worker_stats_events_counterexample :
    ProxyEffect.incrementConnections ∉ proxyStream c1Outcome ∧
    ProxyEffect.decrementOpenConnections ∉ proxyStream c1Outcome ∧
    ProxyEffect.publish EventType.requestComplete ∉ proxyStream c1Outcome ∧
    (proxyStream c1Outcome).any isStatsEffect = false ∧
    (proxyStream c1Outcome).any isBusEffect = false ∧
    ProxyEffect.addExchange true true 7 ∈ proxyStream c1Outcome := by
  decide

/-- C1 amended: when both the request and the response parse, the worker
records the completed exchange (request and response parts, full measured
duration) to the inspector and closes both the inbound stream and the
local socket; it performs no statistics-engine operation and publishes no
event. -/
theorem proxy_worker_success_effects :
    ∀ o : StreamOutcome, o.dialOk = true → o.requestParsed = true →
      o.writeRequestOk = true → o.responseParsed = true →
      (ProxyEffect.addExchange true true o.totalElapsed ∈ proxyStream o ∧
       (proxyStream o).any isStatsEffect = false ∧
       (proxyStream o).any isBusEffect = false ∧
       ProxyEffect.closeLocal ∈ proxyStream o ∧
       ProxyEffect.closeRemote ∈ proxyStream o) := by
  intro o h1 h2 h3 h4
  cases h5 : o.writeResponseOk <;>
    simp [proxyStream, h1, h2, h3, h4, h5, isStatsEffect, isBusEffect]

theorem proxy_worker_success_effects_witness :
    c1Outcome.dialOk = true ∧ c1Outcome.requestParsed = true ∧
    c1Outcome.writeRequestOk = true ∧ c1Outcome.responseParsed = true ∧
    (ProxyEffect.addExchange true true c1Outcome.totalElapsed ∈
      proxyStream c1Outcome ∧
     (proxyStream c1Outcome).any isStatsEffect = false ∧
     (proxyStream c1Outcome).any isBusEffect = false ∧
     ProxyEffect.closeLocal ∈ proxyStream c1Outcome ∧
     ProxyEffect.closeRemote ∈ proxyStream c1Outcome) :=
  ⟨rfl, rfl, rfl, rfl, proxy_worker_success_effects c1Outcome rfl rfl rfl rfl⟩

/-- C9: publishing is a total function that never fails: a closed bus
silently drops the event (also right after `Close`); the subscriber list
keeps its length; each endpoint is updated from its own state alone, so a
full endpoint drops the event for itself only while every open endpoint
with room receives it. -/
theorem event_bus_nonblocking_publish :
    ∀ (b : Bus) (now : Nat) (e : Event),
      (b.closed = true → b.Publish now e = b) ∧
      (b.CloseBus.Publish now e = b.CloseBus) ∧
      (b.Publish now e).SubscriberCount = b.SubscriberCount ∧
      (b.closed = false → ∀ i : Nat,
        ((b.Publish now e).subscribers)[i]? =
          (b.subscribers[i]?).map (deliver (stampEvent now e))) ∧
      (∀ s : Endpoint, s.closed = false → s.buffer.length < s.capacity →
        (deliver (stampEvent now e) s).buffer = s.buffer ++ [stampEvent now e]) ∧
      (∀ s : Endpoint, s.capacity ≤ s.buffer.length →
        deliver (stampEvent now e) s = s) := by
  intro b now e
  refine ⟨?_, ?_, ?_, ?_, ?_, ?_⟩
  · intro h; simp [Bus.Publish, h]
  · simp [Bus.Publish, Bus.CloseBus]
  · by_cases h : b.closed <;> simp [Bus.Publish, h, Bus.SubscriberCount]
  · intro h i; simp [Bus.Publish, h, List.getElem?_map]
  · intro s h1 h2; simp [deliver, h1, h2]
  · intro s h; simp [deliver, Nat.not_lt.mpr h]

theorem event_bus_nonblocking_publish_witness :
    c9Bus.closed = false ∧
    ((c9Bus.Publish 9 c9Event).subscribers)[0]? =
      some { buffer := [{ type := EventType.connecting, data := 0, timestamp := 1 }]
             capacity := 1, closed := false } ∧
    ((c9Bus.Publish 9 c9Event).subscribers)[1]? =
      some { buffer := [c9Event], capacity := 1, closed := false } ∧
    c9Bus.CloseBus.Publish 9 c9Event = c9Bus.CloseBus := by
  have h := event_bus_nonblocking_publish c9Bus 9 c9Event
  exact ⟨rfl, (h.2.2.2.1 rfl 0).trans (by decide),
    (h.2.2.2.1 rfl 1).trans (by decide), h.2.1⟩

/-- C10: for every tunnel configuration, the first record written on the
control stream is the `AuthRequest` carrying the configured token and
`force = false` — the client never requests a force-disconnect. -/
theorem handshake_auth_request_force_false :
    ∀ t : Tunnel,
      (t.handshakeWrites).head? =
        some (ControlWrite.auth { token := t.Token, force := false }) :=
  fun _ => rfl

end Gopublic
